import Mathlib

/-!
Verification of the paperless-go RAG indexing/search engine.

This file gives a shallow embedding, in Lean 4, of the core of the
`pgo-rag` subsystem of the `paperless-go` repository:

* the vector byte encoding (`serializeVector` / `deserializeVector`,
  `rag/internal/storage/sqlite.go`),
* the cosine-similarity function (`cosineSimilarity`, same file),
* the linear-scan similarity search (`SearchSimilar`,
  `rag/internal/storage/search.go`),
* the transactional document+embedding upsert
  (`UpsertDocumentWithEmbedding`, `cmd/pgo-rag/internal/storage/embeddings.go`),
* the index build and query orchestration (`BuildIndex`, `processDocument`,
  `SearchIndex`, `buildEmbeddingText`, `formatTags` of the `indexer`
  package, plus `FormatDocumentText` of the `embedding` package).

Modelling conventions, used throughout:

* Go `float32`/`float64` values are modelled as exact rationals (`ℚ`)
  except where only their bit patterns matter (vector serialization),
  where a `float32` is represented by its IEEE-754 bit pattern, a natural
  number below `2 ^ 32` (`math.Float32bits` / `math.Float32frombits` are
  mutually inverse bit casts, so this representation is exact).
* `math.Sqrt` is an uninterpreted parameter `sqrt : ℚ → ℚ`; every theorem
  about code calling it holds for an arbitrary such function.
* Go machine integers are modelled as `Int` (or `Nat` for values that are
  only ever counted upward from zero, such as summary counters and ids).
* `time.Time` values are modelled as integer timestamps, with `0` playing
  the role of the Go zero time (`IsZero`); `CURRENT_TIMESTAMP` is a clock
  value carried in the store state.
* SQL state is modelled as explicit lists of rows; a transaction executes
  step by step and, when a step is made to fail by an injected failure
  plan, the pre-transaction state is returned (the rollback semantics of
  a single SQLite transaction).
* `context.Context` cancellation is modelled by a monotone cancellation
  point: the context reports `Done` from its `cancelAt`-th poll onward;
  the run state counts polls performed so far.
* The embedder log `embedCalls` is ghost instrumentation recording the
  text of every `GenerateEmbedding` call, used to state "the embedder is
  (not) called" claims; it influences no control flow.
-/

/-! ### Vector byte encoding (`rag/internal/storage/sqlite.go`)

`serializeVector` writes each `float32` as 4 little-endian bytes of its
bit pattern (`binary.LittleEndian.PutUint32 buf[i*4:] (math.Float32bits v)`);
`deserializeVector` reads the bytes back 4 at a time, ignoring a trailing
fragment of fewer than 4 bytes (`len(data)/4` rounds down).  Vectors are
lists of 32-bit patterns, byte buffers are lists of bytes. -/

/-- The 4 little-endian bytes of a 32-bit word (`binary.LittleEndian.PutUint32`). -/
def putUint32LE (b : Nat) : List Nat :=
  [b % 256, b / 256 % 256, b / 65536 % 256, b / 16777216 % 256]

/-- Reassemble a 32-bit word from 4 little-endian bytes (`binary.LittleEndian.Uint32`). -/
def uint32LE (b0 b1 b2 b3 : Nat) : Nat :=
  b0 % 256 + 256 * (b1 % 256) + 65536 * (b2 % 256) + 16777216 * (b3 % 256)

/-- `serializeVector` from `sqlite.go`: each dimension becomes 4
little-endian bytes, concatenated with no separators. -/
def serializeVector (vector : List Nat) : List Nat :=
  (vector.map putUint32LE).flatten

/-- `deserializeVector` from `sqlite.go`: decode 4 bytes at a time;
a trailing fragment shorter than 4 bytes is dropped (`len(data)/4`). -/
def deserializeVector : List Nat → List Nat
  | b0 :: b1 :: b2 :: b3 :: rest => uint32LE b0 b1 b2 b3 :: deserializeVector rest
  | _ => []

theorem deserializeVector_append_of_four {b0 b1 b2 b3 : Nat} (rest : List Nat) :
    deserializeVector (b0 :: b1 :: b2 :: b3 :: rest) =
      uint32LE b0 b1 b2 b3 :: deserializeVector rest := rfl

theorem uint32LE_putUint32LE {b : Nat} (h : b < 2 ^ 32) :
    uint32LE (b % 256) (b / 256 % 256) (b / 65536 % 256) (b / 16777216 % 256) = b := by
  unfold uint32LE
  omega

theorem length_deserializeVector (data : List Nat) :
    (deserializeVector data).length = data.length / 4 := by
  by_cases h : ∃ b0 b1 b2 b3 rest, data = b0 :: b1 :: b2 :: b3 :: rest
  · obtain ⟨b0, b1, b2, b3, rest, rfl⟩ := h
    rw [deserializeVector_append_of_four]
    simp only [List.length_cons]
    rw [length_deserializeVector rest]
    omega
  · match data with
    | [] => simp [deserializeVector]
    | [b0] => simp [deserializeVector]
    | [b0, b1] => simp [deserializeVector]
    | [b0, b1, b2] => simp [deserializeVector]
    | b0 :: b1 :: b2 :: b3 :: rest => exact absurd ⟨b0, b1, b2, b3, rest, rfl⟩ h

/-- C9: `deserializeVector` inverts `serializeVector` exactly (at the level
of `float32` bit patterns, which `math.Float32bits`/`Float32frombits`
translate losslessly to and from `float32` values); the serialized form is
4 bytes per dimension with no separators, so its length is `4 * len(v)`,
and decoding any byte buffer yields `len(data) / 4` dimensions. -/
theorem serializeVector_roundTrip (v : List Nat) (hv : ∀ b ∈ v, b < 2 ^ 32) :
    deserializeVector (serializeVector v) = v ∧
    (serializeVector v).length = 4 * v.length ∧
    ∀ data : List Nat, (deserializeVector data).length = data.length / 4 := by
  refine ⟨?_, ?_, length_deserializeVector⟩
  · induction v with
    | nil => rfl
    | cons b rest ih =>
      have hb : b < 2 ^ 32 := hv b (List.mem_cons_self b rest)
      have hrest : ∀ x ∈ rest, x < 2 ^ 32 := fun x hx => hv x (List.mem_cons_of_mem b hx)
      show deserializeVector (putUint32LE b ++ (rest.map putUint32LE).flatten) = b :: rest
      rw [putUint32LE, List.cons_append, List.cons_append, List.cons_append,
        List.cons_append, List.nil_append, deserializeVector_append_of_four,
        uint32LE_putUint32LE hb]
      exact congrArg (b :: ·) (ih hrest)
  · induction v with
    | nil => rfl
    | cons b rest ih =>
      have hcons : serializeVector (b :: rest) = putUint32LE b ++ serializeVector rest := rfl
      rw [hcons, List.length_append, ih (fun x hx => hv x (List.mem_cons_of_mem b hx)),
        List.length_cons]
      simp [putUint32LE]
      omega

/-- C9 witness: round-trip evaluated on a concrete two-dimensional vector
(the bit patterns of 1.0f and -2.5f). -/
theorem serializeVector_roundTrip_witness :
    (∀ b ∈ [1065353216, 3223322624], b < 2 ^ 32) ∧
      deserializeVector (serializeVector [1065353216, 3223322624]) = [1065353216, 3223322624] ∧
      (serializeVector [1065353216, 3223322624]).length = 4 * 2 ∧
      ∀ data : List Nat, (deserializeVector data).length = data.length / 4 := by
  have h : ∀ b ∈ [1065353216, 3223322624], b < 2 ^ 32 := by decide
  have := serializeVector_roundTrip [1065353216, 3223322624] h
  exact ⟨h, this.1, this.2.1, this.2.2⟩

/-! ### Cosine similarity (`rag/internal/storage/sqlite.go`)

`cosineSimilarity(a, b []float32) float64` returns `0.0` when the lengths
differ, accumulates `dot`, `normA`, `normB` over the common indices,
returns `0.0` when either accumulated norm is zero, and otherwise returns
`dot / (math.Sqrt(normA) * math.Sqrt(normB))`.  Floats are modelled as
rationals and `math.Sqrt` as the uninterpreted parameter `sqrt`. -/

/-- The accumulated dot product of two equal-length vectors. -/
def dotProduct (a b : List ℚ) : ℚ := (List.zipWith (· * ·) a b).sum

/-- The accumulated sum of squares (`normA`, `normB` in the Go source). -/
def normSq (a : List ℚ) : ℚ := dotProduct a a

/-- The magnitude ‖a‖ of a vector, relative to an abstract square root. -/
def magnitude (sqrt : ℚ → ℚ) (a : List ℚ) : ℚ := sqrt (normSq a)

/-- `cosineSimilarity` from `sqlite.go`, parametric in `math.Sqrt`. -/
def cosineSimilarity (sqrt : ℚ → ℚ) (a b : List ℚ) : ℚ :=
  if a.length ≠ b.length then 0
  else if normSq a = 0 ∨ normSq b = 0 then 0
  else dotProduct a b / (sqrt (normSq a) * sqrt (normSq b))

/-- C4: for every pair of vectors the similarity function returns
`dot(a,b)` divided by the product of the magnitudes, except that it
returns exactly `0` — and never an error (it is total) — when the lengths
differ or when either vector has zero magnitude (zero sum of squares). -/
theorem cosineSimilarity_spec (sqrt : ℚ → ℚ) (a b : List ℚ) :
    (a.length ≠ b.length → cosineSimilarity sqrt a b = 0) ∧
    (normSq a = 0 ∨ normSq b = 0 → cosineSimilarity sqrt a b = 0) ∧
    (a.length = b.length → normSq a ≠ 0 → normSq b ≠ 0 →
      cosineSimilarity sqrt a b = dotProduct a b / (magnitude sqrt a * magnitude sqrt b)) := by
  refine ⟨fun h => ?_, fun h => ?_, fun hlen ha hb => ?_⟩
  · simp [cosineSimilarity, h]
  · by_cases hlen : a.length = b.length
    · simp [cosineSimilarity, hlen, h]
    · simp [cosineSimilarity, hlen]
  · simp [cosineSimilarity, hlen, ha, hb, magnitude]

/-- C4 witness: the three cases evaluated concretely — mismatched lengths,
a zero-magnitude side, and a genuine quotient (with `sqrt` instantiated to
the constant-one function). -/
theorem cosineSimilarity_spec_witness :
    cosineSimilarity (fun _ => 1) [1, 2] [3] = 0 ∧
    cosineSimilarity (fun _ => 1) [0, 0] [1, 1] = 0 ∧
    cosineSimilarity (fun _ => 1) [1] [1] =
      dotProduct [1] [1] / (magnitude (fun _ => 1) [1] * magnitude (fun _ => 1) [1]) := by
  refine ⟨(cosineSimilarity_spec (fun _ => 1) [1, 2] [3]).1 (by decide),
    (cosineSimilarity_spec (fun _ => 1) [0, 0] [1, 1]).2.1 (Or.inl (by simp [normSq, dotProduct])),
    (cosineSimilarity_spec (fun _ => 1) [1] [1]).2.2 (by decide)
      (by simp [normSq, dotProduct]) (by simp [normSq, dotProduct])⟩

/-! ### Linear-scan similarity search (`rag/internal/storage/search.go`)

`SearchSimilar(queryVector, limit, threshold)` scans every row of the
`embeddings ⋈ documents` join, computes the cosine similarity of the
stored vector against the query, keeps rows scoring at least `threshold`,
sorts the kept rows by descending score with `sort.Slice`, and truncates
to `limit` results when `limit > 0 && limit < len(results)`.  A row is
modelled with its stored vector already decoded (the byte decoding is
verified separately via `serializeVector`/`deserializeVector`) and its
`last_modified` timestamp already parsed.  `sort.Slice` guarantees a
descending arrangement without specifying the order of equal scores; it
is modelled by `List.mergeSort`, one such arrangement. -/

/-- One row of the `embeddings ⋈ documents` join scanned by `SearchSimilar`. -/
structure EmbeddingRow where
  documentId : Nat
  vector : List ℚ
  paperlessURL : String
  title : String
  tags : String
  lastModified : Int
deriving DecidableEq, Repr

/-- `storage.SearchResult` (`rag/internal/storage/sqlite.go` types). -/
structure SearchResult where
  documentId : Nat
  paperlessURL : String
  title : String
  tags : String
  similarityScore : ℚ
  lastModified : Int
deriving DecidableEq, Repr

/-- Build the `SearchResult` appended for a row that passed the threshold. -/
def toSearchResult (sim : ℚ) (r : EmbeddingRow) : SearchResult :=
  { documentId := r.documentId
    paperlessURL := r.paperlessURL
    title := r.title
    tags := r.tags
    similarityScore := sim
    lastModified := r.lastModified }

/-- The rows kept by the scan: those whose similarity to the query is at
least the threshold, in scan order, tagged with their scores. -/
def keptResults (sqrt : ℚ → ℚ) (rows : List EmbeddingRow) (queryVector : List ℚ)
    (threshold : ℚ) : List SearchResult :=
  (rows.filter fun r => decide (threshold ≤ cosineSimilarity sqrt queryVector r.vector)).map
    fun r => toSearchResult (cosineSimilarity sqrt queryVector r.vector) r

/-- The descending-score comparator passed to the sort
(`results[i].SimilarityScore > results[j].SimilarityScore`). -/
def similarityDesc (x y : SearchResult) : Bool :=
  decide (y.similarityScore ≤ x.similarityScore)

/-- `SearchSimilar` from `search.go`, parametric in `math.Sqrt`. -/
def searchSimilar (sqrt : ℚ → ℚ) (rows : List EmbeddingRow) (queryVector : List ℚ)
    (limit : Int) (threshold : ℚ) : List SearchResult :=
  let results := (keptResults sqrt rows queryVector threshold).mergeSort similarityDesc
  if 0 < limit ∧ limit < (results.length : Int) then results.take limit.toNat else results

theorem similarityDesc_trans (a b c : SearchResult) :
    similarityDesc a b = true → similarityDesc b c = true → similarityDesc a c = true := by
  simp only [similarityDesc, decide_eq_true_iff]
  exact fun h1 h2 => le_trans h2 h1

theorem similarityDesc_total (a b : SearchResult) :
    (similarityDesc a b || similarityDesc b a) = true := by
  simp [similarityDesc, le_total]

theorem sorted_mergeSort_similarityDesc (l : List SearchResult) :
    (l.mergeSort similarityDesc).Sorted
      (fun x y => y.similarityScore ≤ x.similarityScore) := by
  have h := List.sorted_mergeSort similarityDesc_trans similarityDesc_total l
  exact h.imp fun hab => by
    simpa [similarityDesc, decide_eq_true_iff] using hab

theorem keptResults_score {sqrt : ℚ → ℚ} {rows : List EmbeddingRow} {q : List ℚ} {θ : ℚ}
    {res : SearchResult} (h : res ∈ keptResults sqrt rows q θ) :
    θ ≤ res.similarityScore := by
  simp only [keptResults, List.mem_map] at h
  obtain ⟨r, hr, rfl⟩ := h
  have := (List.mem_filter.mp hr).2
  simpa [toSearchResult, decide_eq_true_iff] using this

/-- C3: for a positive limit, `SearchSimilar` returns exactly the stored
rows whose cosine similarity to the query is at least the threshold,
arranged in descending score order and truncated to at most `limit`
results: the output is the `limit`-prefix of a descending-sorted
permutation of the kept rows, its length is the minimum of `limit` and
the number of kept rows, and every returned result meets the threshold. -/
theorem searchSimilar_spec (sqrt : ℚ → ℚ) (rows : List EmbeddingRow) (q : List ℚ)
    (limit : Int) (θ : ℚ) (hl : 0 < limit) :
    ∃ sortedAll : List SearchResult,
      (keptResults sqrt rows q θ).Perm sortedAll ∧
      sortedAll.Sorted (fun x y => y.similarityScore ≤ x.similarityScore) ∧
      searchSimilar sqrt rows q limit θ = sortedAll.take limit.toNat ∧
      (searchSimilar sqrt rows q limit θ).length =
        min limit.toNat (keptResults sqrt rows q θ).length ∧
      ∀ res ∈ searchSimilar sqrt rows q limit θ, θ ≤ res.similarityScore := by
  refine ⟨(keptResults sqrt rows q θ).mergeSort similarityDesc,
    (List.mergeSort_perm (keptResults sqrt rows q θ) similarityDesc).symm,
    sorted_mergeSort_similarityDesc (keptResults sqrt rows q θ), ?_, ?_, ?_⟩
  · rw [searchSimilar]
    split
    · rfl
    · next hcond =>
      have hlen : ((keptResults sqrt rows q θ).mergeSort similarityDesc).length ≤ limit.toNat := by
        rcases not_and_or.mp hcond with h | h
        · exact absurd hl h
        · have := not_lt.mp h
          omega
      rw [List.take_of_length_le hlen]
  · rw [searchSimilar]
    split
    · next hcond =>
      rw [List.length_take, List.length_mergeSort]
    · next hcond =>
      rw [List.length_mergeSort]
      rcases not_and_or.mp hcond with h | h
      · exact absurd hl h
      · have h2 := not_lt.mp h
        rw [List.length_mergeSort] at h2
        omega
  · intro res hres
    rw [searchSimilar] at hres
    have hmem : res ∈ (keptResults sqrt rows q θ).mergeSort similarityDesc := by
      split at hres
      · exact List.take_subset _ _ hres
      · exact hres
    exact keptResults_score (List.mem_mergeSort.mp hmem)

/-- C3 witness: the spec applied at a concrete store of one row and
`limit = 1`. -/
theorem searchSimilar_spec_witness :
    (0 : Int) < 1 ∧
    ∃ sortedAll : List SearchResult,
      (keptResults (fun _ => 1) [⟨7, [1], "u", "t", "", 0⟩] [1] 0).Perm sortedAll ∧
      sortedAll.Sorted (fun x y => y.similarityScore ≤ x.similarityScore) ∧
      searchSimilar (fun _ => 1) [⟨7, [1], "u", "t", "", 0⟩] [1] 1 0 = sortedAll.take (1 : Int).toNat ∧
      (searchSimilar (fun _ => 1) [⟨7, [1], "u", "t", "", 0⟩] [1] 1 0).length =
        min (1 : Int).toNat (keptResults (fun _ => 1) [⟨7, [1], "u", "t", "", 0⟩] [1] 0).length ∧
      ∀ res ∈ searchSimilar (fun _ => 1) [⟨7, [1], "u", "t", "", 0⟩] [1] 1 0,
        (0 : ℚ) ≤ res.similarityScore :=
  ⟨by decide, searchSimilar_spec (fun _ => 1) [⟨7, [1], "u", "t", "", 0⟩] [1] 1 0 (by decide)⟩

/-- C10: at the store layer a non-positive limit means unlimited: every
kept row is returned (the output is a descending-sorted permutation of
all rows meeting the threshold, with no truncation and no error). -/
theorem searchSimilar_nonpositive_limit (sqrt : ℚ → ℚ) (rows : List EmbeddingRow)
    (q : List ℚ) (limit : Int) (θ : ℚ) (hl : limit ≤ 0) :
    (searchSimilar sqrt rows q limit θ).Perm (keptResults sqrt rows q θ) ∧
    (searchSimilar sqrt rows q limit θ).Sorted
      (fun x y => y.similarityScore ≤ x.similarityScore) ∧
    (searchSimilar sqrt rows q limit θ).length = (keptResults sqrt rows q θ).length := by
  have hcond : ¬(0 < limit ∧ limit < (((keptResults sqrt rows q θ).mergeSort similarityDesc).length : Int)) := by
    intro h
    exact absurd h.1 (not_lt.mpr hl)
  rw [searchSimilar, if_neg hcond]
  exact ⟨List.mergeSort_perm _ _, sorted_mergeSort_similarityDesc _,
    List.length_mergeSort _⟩

/-- C10 witness: a zero limit on a two-row store returns both kept rows. -/
theorem searchSimilar_nonpositive_limit_witness :
    (0 : Int) ≤ 0 ∧
    ((searchSimilar (fun _ => 1) [⟨7, [1], "u", "t", "", 0⟩, ⟨8, [1], "v", "s", "", 0⟩] [1] 0 0).Perm
      (keptResults (fun _ => 1) [⟨7, [1], "u", "t", "", 0⟩, ⟨8, [1], "v", "s", "", 0⟩] [1] 0) ∧
    (searchSimilar (fun _ => 1) [⟨7, [1], "u", "t", "", 0⟩, ⟨8, [1], "v", "s", "", 0⟩] [1] 0 0).Sorted
      (fun x y => y.similarityScore ≤ x.similarityScore) ∧
    (searchSimilar (fun _ => 1) [⟨7, [1], "u", "t", "", 0⟩, ⟨8, [1], "v", "s", "", 0⟩] [1] 0 0).length =
      (keptResults (fun _ => 1) [⟨7, [1], "u", "t", "", 0⟩, ⟨8, [1], "v", "s", "", 0⟩] [1] 0).length) :=
  ⟨by decide,
    searchSimilar_nonpositive_limit (fun _ => 1)
      [⟨7, [1], "u", "t", "", 0⟩, ⟨8, [1], "v", "s", "", 0⟩] [1] 0 0 (by decide)⟩

/-! ### Transactional document+embedding upsert
(`cmd/pgo-rag/internal/storage/embeddings.go`)

`UpsertDocumentWithEmbedding(doc, content, vector)` runs one SQLite
transaction: (a) `INSERT ... ON CONFLICT(paperless_id) DO UPDATE` of the
document row, stamping `embedded_at = CURRENT_TIMESTAMP`; (b) `SELECT id`
of the row with that `paperless_id`; (c) `DELETE FROM embeddings WHERE
document_id = ?`; (d) `INSERT` of the new embedding (serialized vector);
then commit.  Every failing step rolls the transaction back, so the
caller-observable state on any error is the pre-call state.  Failures of
the individual statements are injected through a `TxFailure` plan; the
returned pair is (post-call state, error). -/

namespace Storage

/-- `storage.Document` (`cmd/pgo-rag/internal/storage/schema.go`):
`id` is the internal autoincrement key, `embeddedAt = 0` models the Go
zero time / SQL NULL. -/
structure Document where
  id : Nat
  paperlessId : Int
  paperlessURL : String
  title : String
  tags : String
  embeddedAt : Int
  lastModified : Int
deriving DecidableEq, Repr

/-- `storage.Embedding`: one row of the `embeddings` table; the vector is
stored in serialized byte form. -/
structure Embedding where
  id : Nat
  documentId : Nat
  content : String
  vector : List Nat
deriving DecidableEq, Repr

/-- The SQLite database state visible to the storage layer. -/
structure Store where
  documents : List Document
  embeddings : List Embedding
  nextDocumentId : Nat
  nextEmbeddingId : Nat
  now : Int
deriving DecidableEq, Repr

/-- Injected failure plan: which statement of the transaction fails. -/
structure TxFailure where
  failUpsert : Bool
  failFetchId : Bool
  failDelete : Bool
  failInsert : Bool
  failCommit : Bool
deriving DecidableEq, Repr

/-- The plan with no injected failure. -/
def TxFailure.none : TxFailure := ⟨false, false, false, false, false⟩

/-- The `DO UPDATE` arm of the conflict clause: overwrite the mutable
columns and stamp `embedded_at` with the transaction clock. -/
def applyDocUpdate (now : Int) (doc : Document) (d : Document) : Document :=
  { d with paperlessURL := doc.paperlessURL, title := doc.title, tags := doc.tags,
           lastModified := doc.lastModified, embeddedAt := now }

/-- The `INSERT` arm: a fresh row under the next autoincrement id. -/
def newDocRow (now : Int) (nextId : Nat) (doc : Document) : Document :=
  { id := nextId, paperlessId := doc.paperlessId, paperlessURL := doc.paperlessURL,
    title := doc.title, tags := doc.tags, embeddedAt := now, lastModified := doc.lastModified }

/-- Effect of `INSERT ... ON CONFLICT(paperless_id) DO UPDATE` on the
`documents` table. -/
def upsertDocs (now : Int) (nextId : Nat) (doc : Document) (docs : List Document) : List Document :=
  if docs.any fun d => decide (d.paperlessId = doc.paperlessId) then
    docs.map fun d => if d.paperlessId = doc.paperlessId then applyDocUpdate now doc d else d
  else docs ++ [newDocRow now nextId doc]

/-- `UpsertDocumentWithEmbedding` from `embeddings.go`.  The returned pair
is the post-call store and the error, the store being unchanged on every
rollback path.  (The injected `failFetchId` is tested before the `SELECT`
rather than after; both orders return the unchanged store with an error.) -/
def UpsertDocumentWithEmbedding (plan : TxFailure) (st : Store) (doc : Document)
    (content : String) (vector : List Nat) : Store × Option String :=
  if plan.failUpsert then (st, some "failed to upsert document")
  else if plan.failFetchId then (st, some "failed to fetch document id")
  else
    match (upsertDocs st.now st.nextDocumentId doc st.documents).find?
        (fun d => decide (d.paperlessId = doc.paperlessId)) with
    | Option.none => (st, some "failed to fetch document id")
    | some row =>
      if plan.failDelete then (st, some "failed to delete embeddings")
      else if plan.failInsert then (st, some "failed to insert embedding")
      else if plan.failCommit then (st, some "failed to commit embedding update")
      else
        ({ documents := upsertDocs st.now st.nextDocumentId doc st.documents
           embeddings := (st.embeddings.filter fun e => decide (e.documentId ≠ row.id)) ++
             [⟨st.nextEmbeddingId, row.id, content, serializeVector vector⟩]
           nextDocumentId :=
             if st.documents.any (fun d => decide (d.paperlessId = doc.paperlessId)) then
               st.nextDocumentId
             else st.nextDocumentId + 1
           nextEmbeddingId := st.nextEmbeddingId + 1
           now := st.now }, Option.none)

/-- The embeddings owned by internal document id `docId`. -/
def embeddingsFor (st : Store) (docId : Nat) : List Embedding :=
  st.embeddings.filter fun e => decide (e.documentId = docId)

/-- `GetDocumentByPaperlessID`-style lookup by external id. -/
def findByPaperlessId (st : Store) (pid : Int) : Option Document :=
  st.documents.find? fun d => decide (d.paperlessId = pid)

theorem find?_upsertDocs (now : Int) (nextId : Nat) (doc : Document) (docs : List Document) :
    ∃ row, (upsertDocs now nextId doc docs).find?
        (fun d => decide (d.paperlessId = doc.paperlessId)) = some row ∧
      row.paperlessId = doc.paperlessId ∧ row.paperlessURL = doc.paperlessURL ∧
      row.title = doc.title ∧ row.tags = doc.tags ∧
      row.lastModified = doc.lastModified ∧ row.embeddedAt = now := by
  unfold upsertDocs
  split
  · next hany =>
    induction docs with
    | nil => simp at hany
    | cons d rest ih =>
      by_cases hd : d.paperlessId = doc.paperlessId
      · refine ⟨applyDocUpdate now doc d, ?_, ?_⟩
        · simp [List.find?_cons, hd, applyDocUpdate]
        · simp [applyDocUpdate, hd]
      · simp only [List.any_cons, Bool.or_eq_true, decide_eq_true_iff] at hany
        rcases hany with h | h
        · exact absurd h hd
        · obtain ⟨row, hrow, hprops⟩ := ih h
          refine ⟨row, ?_, hprops⟩
          simpa [List.find?_cons, hd] using hrow
  · next hany =>
    have hnone : docs.find? (fun d => decide (d.paperlessId = doc.paperlessId)) = Option.none := by
      rw [List.find?_eq_none]
      intro x hx
      simp only [decide_eq_true_iff]
      intro hxeq
      exact hany (List.any_eq_true.mpr ⟨x, hx, by simp [hxeq]⟩)
    refine ⟨newDocRow now nextId doc, ?_, by simp [newDocRow]⟩
    rw [List.find?_append, hnone]
    simp [List.find?_cons, newDocRow]

theorem upsert_failure (plan : TxFailure) (st : Store) (doc : Document) (content : String)
    (vector : List Nat)
    (h : (plan.failUpsert || plan.failFetchId || plan.failDelete || plan.failInsert ||
      plan.failCommit) = true) :
    ∃ msg, UpsertDocumentWithEmbedding plan st doc content vector = (st, some msg) := by
  obtain ⟨row, hrow, -⟩ := find?_upsertDocs st.now st.nextDocumentId doc st.documents
  unfold UpsertDocumentWithEmbedding
  rw [hrow]
  by_cases h1 : plan.failUpsert = true <;> by_cases h2 : plan.failFetchId = true <;>
    by_cases h3 : plan.failDelete = true <;> by_cases h4 : plan.failInsert = true <;>
    by_cases h5 : plan.failCommit = true <;> simp_all

theorem upsert_success (plan : TxFailure) (st : Store) (doc : Document) (content : String)
    (vector : List Nat) (row : Document)
    (hrow : (upsertDocs st.now st.nextDocumentId doc st.documents).find?
      (fun d => decide (d.paperlessId = doc.paperlessId)) = some row)
    (h1 : plan.failUpsert = false) (h2 : plan.failFetchId = false)
    (h3 : plan.failDelete = false) (h4 : plan.failInsert = false)
    (h5 : plan.failCommit = false) :
    UpsertDocumentWithEmbedding plan st doc content vector =
      ({ documents := upsertDocs st.now st.nextDocumentId doc st.documents
         embeddings := (st.embeddings.filter fun e => decide (e.documentId ≠ row.id)) ++
           [⟨st.nextEmbeddingId, row.id, content, serializeVector vector⟩]
         nextDocumentId :=
           if st.documents.any (fun d => decide (d.paperlessId = doc.paperlessId)) then
             st.nextDocumentId
           else st.nextDocumentId + 1
         nextEmbeddingId := st.nextEmbeddingId + 1
         now := st.now }, Option.none) := by
  unfold UpsertDocumentWithEmbedding
  rw [hrow]
  simp [h1, h2, h3, h4, h5]

/-- C1: `UpsertDocumentWithEmbedding` behaves as one transaction.  On
success the document row with the given external id carries the supplied
fields with a fresh `embedded_at` stamp, that document owns exactly one
embedding — the newly inserted one, holding the content text and the
serialized vector — and the embeddings of every other document are
untouched.  If any statement of the transaction fails, an error is
reported and the post-call state is exactly the pre-call state; any
injected step failure makes the whole call fail. -/
theorem upsertDocumentWithEmbedding_spec (plan : TxFailure) (st : Store) (doc : Document)
    (content : String) (vector : List Nat) :
    ((UpsertDocumentWithEmbedding plan st doc content vector).2.isSome →
      (UpsertDocumentWithEmbedding plan st doc content vector).1 = st) ∧
    ((plan.failUpsert || plan.failFetchId || plan.failDelete || plan.failInsert ||
        plan.failCommit) = true →
      (UpsertDocumentWithEmbedding plan st doc content vector).2.isSome) ∧
    ((UpsertDocumentWithEmbedding plan st doc content vector).2 = Option.none →
      ∃ row,
        findByPaperlessId (UpsertDocumentWithEmbedding plan st doc content vector).1
            doc.paperlessId = some row ∧
        row.paperlessURL = doc.paperlessURL ∧ row.title = doc.title ∧ row.tags = doc.tags ∧
        row.lastModified = doc.lastModified ∧ row.embeddedAt = st.now ∧
        embeddingsFor (UpsertDocumentWithEmbedding plan st doc content vector).1 row.id =
          [⟨st.nextEmbeddingId, row.id, content, serializeVector vector⟩] ∧
        ∀ docId, docId ≠ row.id →
          embeddingsFor (UpsertDocumentWithEmbedding plan st doc content vector).1 docId =
            embeddingsFor st docId) := by
  obtain ⟨row, hrow, hpid, hurl, htitle, htags, hmod, hemb⟩ :=
    find?_upsertDocs st.now st.nextDocumentId doc st.documents
  by_cases hflag : (plan.failUpsert || plan.failFetchId || plan.failDelete || plan.failInsert ||
      plan.failCommit) = true
  · obtain ⟨msg, hmsg⟩ := upsert_failure plan st doc content vector hflag
    rw [hmsg]
    exact ⟨fun _ => rfl, fun _ => rfl, fun hc => by simp at hc⟩
  · simp only [Bool.or_eq_true, not_or, Bool.not_eq_true] at hflag
    obtain ⟨⟨⟨⟨h1, h2⟩, h3⟩, h4⟩, h5⟩ := hflag
    rw [upsert_success plan st doc content vector row hrow h1 h2 h3 h4 h5]
    refine ⟨fun hsome => by simp at hsome, fun hflag => by simp_all, fun _ => ?_⟩
    refine ⟨row, hrow, hurl, htitle, htags, hmod, hemb, ?_, ?_⟩
    · show List.filter _ (_ ++ _) = _
      rw [List.filter_append, List.filter_filter]
      simp
    · intro docId hne
      show List.filter _ (_ ++ _) = _
      rw [List.filter_append, List.filter_filter]
      have hcongr : (List.filter
          (fun e => decide (e.documentId = docId) && decide (e.documentId ≠ row.id))
          st.embeddings) = List.filter (fun e => decide (e.documentId = docId))
          st.embeddings := by
        apply List.filter_congr
        intro e _
        by_cases he : e.documentId = docId
        · simp [he, hne]
        · simp [he]
      rw [hcongr]
      simp [hne, embeddingsFor, Ne.symm hne]

end Storage

/-- C1 witness: a successful call on a concrete one-document store,
with a pre-existing stale embedding, ends with exactly one embedding for
that document and an untouched foreign embedding. -/
theorem upsertDocumentWithEmbedding_spec_witness :
    (Storage.UpsertDocumentWithEmbedding Storage.TxFailure.none
        ⟨[⟨1, 42, "u0", "t0", "", 0, 5⟩], [⟨1, 1, "old", [0]⟩, ⟨2, 9, "other", [1]⟩], 2, 3, 11⟩
        ⟨0, 42, "u1", "t1", "tags", 0, 6⟩ "text" [7]).2 = Option.none ∧
    ∃ row,
      Storage.findByPaperlessId
          (Storage.UpsertDocumentWithEmbedding Storage.TxFailure.none
            ⟨[⟨1, 42, "u0", "t0", "", 0, 5⟩], [⟨1, 1, "old", [0]⟩, ⟨2, 9, "other", [1]⟩], 2, 3, 11⟩
            ⟨0, 42, "u1", "t1", "tags", 0, 6⟩ "text" [7]).1 42 = some row ∧
      row.paperlessURL = "u1" ∧ row.title = "t1" ∧ row.tags = "tags" ∧
      row.lastModified = 6 ∧ row.embeddedAt = 11 ∧
      Storage.embeddingsFor
          (Storage.UpsertDocumentWithEmbedding Storage.TxFailure.none
            ⟨[⟨1, 42, "u0", "t0", "", 0, 5⟩], [⟨1, 1, "old", [0]⟩, ⟨2, 9, "other", [1]⟩], 2, 3, 11⟩
            ⟨0, 42, "u1", "t1", "tags", 0, 6⟩ "text" [7]).1 row.id =
        [⟨3, row.id, "text", serializeVector [7]⟩] ∧
      ∀ docId, docId ≠ row.id →
        Storage.embeddingsFor
            (Storage.UpsertDocumentWithEmbedding Storage.TxFailure.none
              ⟨[⟨1, 42, "u0", "t0", "", 0, 5⟩], [⟨1, 1, "old", [0]⟩, ⟨2, 9, "other", [1]⟩], 2, 3, 11⟩
              ⟨0, 42, "u1", "t1", "tags", 0, 6⟩ "text" [7]).1 docId =
          Storage.embeddingsFor
            ⟨[⟨1, 42, "u0", "t0", "", 0, 5⟩], [⟨1, 1, "old", [0]⟩, ⟨2, 9, "other", [1]⟩], 2, 3, 11⟩
            docId := by
  refine ⟨by decide, ?_⟩
  exact (Storage.upsertDocumentWithEmbedding_spec Storage.TxFailure.none
    ⟨[⟨1, 42, "u0", "t0", "", 0, 5⟩], [⟨1, 1, "old", [0]⟩, ⟨2, 9, "other", [1]⟩], 2, 3, 11⟩
    ⟨0, 42, "u1", "t1", "tags", 0, 6⟩ "text" [7]).2.2 (by decide)

/-! ### Indexer (`cmd/pgo-rag/internal/indexer/indexer.go`)

The build pipeline `BuildIndex` / `processDocument` and the query
entry point `SearchIndex`, embedded with explicit state passing.

Modelling notes, beyond the file-level conventions:

* The document source is a fixed corpus list served page by page in the
  order stored (`ListDocuments` with `Ordering: "id"`), with
  `start = (page-1)*pageSize` and a `Next` marker while further items
  remain — the pagination contract the indexer is written against.
* `listAllTags` is modelled as one context poll followed by the
  eagerly-built id→name map (later pages overwrite earlier entries, as
  for a Go map); its per-page polls are collapsed into one.
* The `GetIndexState` read at the start of a build only feeds logging, so
  it has no observable effect here; the nil-collaborator checks cannot
  fire because collaborators are total values in this embedding.
* Storage reads and writes other than `UpsertDocumentWithEmbedding` are
  modelled as infallible; upsert failures are injected per external id
  (`upsertFails`), and the embedder may fail per text.  The fatal
  storage-error returns of the Go code (e.g. a failing
  `GetDocumentByPaperlessID`) are therefore not reachable in this model;
  cancellation is the modelled fatal early return.
* `UpsertDocumentWithEmbedding` appears here through its net effect on
  the indexer-visible state, keyed by external id (its internal
  transactional behaviour is verified separately on the `Storage` model).
-/

namespace Indexer

/-- The fields of `paperless.Document` the indexer reads. -/
structure PaperlessDocument where
  id : Nat
  title : String
  content : String
  tags : List Nat
  modified : Int
deriving DecidableEq, Repr

/-- `indexer.BuildSummary`. -/
structure BuildSummary where
  documentsFetched : Nat
  documentsIndexed : Nat
  documentsSkipped : Nat
  documentsFailed : Nat
  embeddingsGenerated : Nat
deriving DecidableEq, Repr

/-- `indexed + skipped + failed`, the right-hand side of the claimed
summary invariant. -/
def sumParts (s : BuildSummary) : Nat :=
  s.documentsIndexed + s.documentsSkipped + s.documentsFailed

/-- A stored document row as the indexer sees it (`storage.Document`
without the internal id; `embeddedAt = 0` models the Go zero time). -/
structure StoredDocument where
  paperlessId : Nat
  paperlessURL : String
  title : String
  tags : String
  embeddedAt : Int
  lastModified : Int
deriving DecidableEq, Repr

/-- The indexer-visible database state: documents, their single current
embedding keyed by external id, failure records, and the index cursor. -/
structure IndexDB (V : Type) where
  documents : List StoredDocument
  embeddings : List (Nat × String × V)
  failures : List (Nat × String)
  lastPaperlessId : Nat
  now : Int
deriving DecidableEq

/-- `indexer.BuildOptions`. -/
structure BuildOptions where
  pageSize : Int
  maxDocs : Int
  tagName : String
deriving DecidableEq, Repr

/-- The collaborators and fault model of one build. -/
structure BuildEnv (V : Type) where
  sourceDocs : List PaperlessDocument
  sourceTags : List (Nat × String)
  generateEmbedding : String → Except String V
  upsertFails : Nat → Bool
  cancelAt : Nat

/-- The fatal early-return of the model (context cancellation). -/
inductive BuildError where
  | cancelled
deriving DecidableEq, Repr

/-- Mutable state threaded through a build: database, summary, number of
context polls performed, and the ghost log of embedder calls. -/
structure RunState (V : Type) where
  db : IndexDB V
  summary : BuildSummary
  checks : Nat
  embedCalls : List String
deriving DecidableEq

variable {V : Type}

/-- The context reports cancellation from the `cancelAt`-th poll onward. -/
def ctxCancelled (env : BuildEnv V) (checks : Nat) : Bool :=
  decide (env.cancelAt ≤ checks)

/-- The tag id→name map built by `listAllTags` (later entries overwrite
earlier ones, missing ids give the empty string, as for a Go map). -/
def tagNameById (tags : List (Nat × String)) (id : Nat) : String :=
  ((tags.reverse.find? fun t => decide (t.1 = id)).map (·.2)).getD ""

/-- `sort.Strings`: ascending lexicographic sort. -/
def sortStrings (l : List String) : List String :=
  l.mergeSort fun a b => decide (a ≤ b)

/-- `formatTags` from `indexer.go`: resolve each tag id (falling back to
`tag-<id>` for an unknown or empty name), sort lexicographically, join
with `", "`; the empty id list gives the empty string. -/
def formatTags (tagIds : List Nat) (tagsByID : Nat → String) : String :=
  if tagIds.isEmpty then ""
  else
    String.intercalate ", "
      (sortStrings (tagIds.map fun id =>
        if tagsByID id = "" then "tag-" ++ toString id else tagsByID id))

/-- `embedding.FormatDocumentText` (`internal/embedding/service.go`). -/
def FormatDocumentText (title tags : String) : String :=
  if tags = "" then title else title ++ ". Tags: " ++ tags

/-- ASCII whitespace (the whitespace `strings.TrimSpace` strips in the
texts at hand; Go additionally strips other Unicode space characters). -/
def isSpaceChar (c : Char) : Bool :=
  c = ' ' || c = '\t' || c = '\n' || c = '\r'

/-- `strings.TrimSpace`: drop leading and trailing whitespace. -/
def trimString (s : String) : String :=
  String.mk (((s.data.dropWhile isSpaceChar).reverse.dropWhile isSpaceChar).reverse)

/-- `buildEmbeddingText` from `indexer.go`. -/
def buildEmbeddingText (title tags content : String) : String :=
  if trimString content = "" then FormatDocumentText (trimString title) (trimString tags)
  else if FormatDocumentText (trimString title) (trimString tags) = "" then trimString content
  else FormatDocumentText (trimString title) (trimString tags) ++ "\n\n" ++ trimString content

/-- `docURL` from `indexer.go`. -/
def docURL (d : PaperlessDocument) : String :=
  "/api/documents/" ++ toString d.id ++ "/"

/-- `documentHasTag` from `indexer.go`. -/
def documentHasTag (d : PaperlessDocument) (tagsByID : Nat → String) (tagName : String) : Bool :=
  d.tags.any fun id => decide (tagsByID id = tagName)

/-- `GetDocumentByPaperlessID` (returns `nil, nil` when absent). -/
def getDocumentByPaperlessID (db : IndexDB V) (pid : Nat) : Option StoredDocument :=
  db.documents.find? fun d => decide (d.paperlessId = pid)

/-- Net effect of `UpsertDocumentWithEmbedding` on the indexer-visible
state: insert-or-update the document by external id with a fresh
`embedded_at` stamp, and replace (delete+insert) its single embedding. -/
def upsertNet (db : IndexDB V) (d : StoredDocument) (content : String) (vec : V) : IndexDB V :=
  { db with
    documents :=
      if db.documents.any fun x => decide (x.paperlessId = d.paperlessId) then
        db.documents.map fun x =>
          if x.paperlessId = d.paperlessId then
            { x with paperlessURL := d.paperlessURL, title := d.title, tags := d.tags,
                     lastModified := d.lastModified, embeddedAt := db.now }
          else x
      else db.documents ++ [{ d with embeddedAt := db.now }]
    embeddings := (db.embeddings.filter fun e => decide (e.1 ≠ d.paperlessId)) ++
      [(d.paperlessId, content, vec)] }

/-- `RecordIndexFailure` (`index_state.go`): upsert-on-conflict of the
failure row keyed by external id. -/
def recordIndexFailure (db : IndexDB V) (pid : Nat) (msg : String) : IndexDB V :=
  { db with failures := (db.failures.filter fun f => decide (f.1 ≠ pid)) ++ [(pid, msg)] }

/-- `ClearIndexFailure`: delete the failure row for an external id. -/
def clearIndexFailure (db : IndexDB V) (pid : Nat) : IndexDB V :=
  { db with failures := db.failures.filter fun f => decide (f.1 ≠ pid) }

/-- `UpdateIndexState`: advance the cursor. -/
def updateIndexState (db : IndexDB V) (pid : Nat) : IndexDB V :=
  { db with lastPaperlessId := pid }

/-- `GetIndexFailure`-style lookup of the failure row for an id. -/
def lookupFailure (db : IndexDB V) (pid : Nat) : Option String :=
  (db.failures.find? fun f => decide (f.1 = pid)).map (·.2)

/-- The change-detection test of `processDocument`: a stored document
exists, its last-modified timestamp is unchanged, and it has a non-zero
embedded-at time. -/
def unchangedSkip (db : IndexDB V) (doc : PaperlessDocument) : Bool :=
  match getDocumentByPaperlessID db doc.id with
  | some existing =>
      decide (existing.lastModified = doc.modified) && decide (existing.embeddedAt ≠ 0)
  | Option.none => false

/-- `processDocument` from `indexer.go`: poll the context, apply the tag
filter, build the embedding text, skip empty text, skip unchanged
already-embedded documents, embed, upsert, clear the failure record, and
count; embedder or upsert failures record a per-document failure and
count as failed without aborting. -/
def processDocument (env : BuildEnv V) (tagsByID : Nat → String) (opts : BuildOptions)
    (doc : PaperlessDocument) (rs : RunState V) : RunState V × Option BuildError :=
  if ctxCancelled env rs.checks then
    ({ rs with checks := rs.checks + 1 }, some BuildError.cancelled)
  else
    let rs1 : RunState V := { rs with checks := rs.checks + 1 }
    if opts.tagName ≠ "" ∧ ¬documentHasTag doc tagsByID opts.tagName then
      ({ rs1 with summary :=
          { rs1.summary with documentsSkipped := rs1.summary.documentsSkipped + 1 } },
        Option.none)
    else if buildEmbeddingText doc.title (formatTags doc.tags tagsByID) doc.content = "" then
      ({ rs1 with summary :=
          { rs1.summary with documentsSkipped := rs1.summary.documentsSkipped + 1 } },
        Option.none)
    else if unchangedSkip rs1.db doc then
      ({ rs1 with summary :=
          { rs1.summary with documentsSkipped := rs1.summary.documentsSkipped + 1 } },
        Option.none)
    else
      let text := buildEmbeddingText doc.title (formatTags doc.tags tagsByID) doc.content
      let rs2 : RunState V := { rs1 with embedCalls := rs1.embedCalls ++ [text] }
      match env.generateEmbedding text with
      | Except.error msg =>
        ({ rs2 with
            db := recordIndexFailure rs2.db doc.id
              ("generate embedding for document " ++ toString doc.id ++ ": " ++ msg)
            summary :=
              { rs2.summary with documentsFailed := rs2.summary.documentsFailed + 1 } },
          Option.none)
      | Except.ok vec =>
        if env.upsertFails doc.id then
          ({ rs2 with
              db := recordIndexFailure rs2.db doc.id
                ("update index for document " ++ toString doc.id ++ ": storage error")
              summary :=
                { rs2.summary with documentsFailed := rs2.summary.documentsFailed + 1 } },
            Option.none)
        else
          ({ rs2 with
              db := clearIndexFailure
                (upsertNet rs2.db
                  ⟨doc.id, docURL doc, doc.title, formatTags doc.tags tagsByID, 0, doc.modified⟩
                  text vec)
                doc.id
              summary :=
                { rs2.summary with
                    documentsIndexed := rs2.summary.documentsIndexed + 1
                    embeddingsGenerated := rs2.summary.embeddingsGenerated + 1 } },
            Option.none)

/-- The inner per-page loop of `BuildIndex`: count each fetched document,
process it, advance the cursor, stop early when the `maxDocs` budget is
reached or a fatal error occurs. -/
def processPage (env : BuildEnv V) (tagsByID : Nat → String) (opts : BuildOptions) :
    List PaperlessDocument → RunState V → RunState V × Option BuildError
  | [], rs => (rs, Option.none)
  | doc :: rest, rs =>
    if 0 < opts.maxDocs ∧ opts.maxDocs ≤ (rs.summary.documentsFetched : Int) then
      (rs, Option.none)
    else
      match processDocument env tagsByID opts doc
          { rs with summary :=
              { rs.summary with documentsFetched := rs.summary.documentsFetched + 1 } } with
      | (rs', some e) => (rs', some e)
      | (rs', Option.none) =>
        processPage env tagsByID opts rest { rs' with db := updateIndexState rs'.db doc.id }

/-- One page of the document source: `start = (page-1)*pageSize`, items
`[start, start+pageSize)`, and a next-page marker while items remain. -/
def listDocumentsPage (docs : List PaperlessDocument) (page pageSize : Nat) :
    List PaperlessDocument × Bool :=
  if docs.length ≤ (page - 1) * pageSize then ([], false)
  else ((docs.drop ((page - 1) * pageSize)).take pageSize,
    (page - 1) * pageSize + pageSize < docs.length)

/-- `effectivePageSize`: shrink the requested page size to the remaining
`maxDocs` budget. -/
def effectivePageSize (maxDocs : Int) (pageSize : Nat) (fetched : Nat) : Nat :=
  if 0 < maxDocs ∧ maxDocs - (fetched : Int) < (pageSize : Int) then
    (maxDocs - (fetched : Int)).toNat
  else pageSize

theorem effectivePageSize_pos (maxDocs : Int) (pageSize : Nat) (fetched : Nat)
    (hps : 0 < pageSize) (h : ¬(0 < maxDocs ∧ maxDocs - (fetched : Int) ≤ 0)) :
    0 < effectivePageSize maxDocs pageSize fetched := by
  unfold effectivePageSize
  push_neg at h
  split
  · next hc => omega
  · exact hps

theorem listDocumentsPage_ne_nil {docs : List PaperlessDocument} {page eff : Nat}
    (h : ¬(listDocumentsPage docs page eff).1 = []) : (page - 1) * eff < docs.length := by
  unfold listDocumentsPage at h
  split at h
  · exact absurd rfl h
  · next hc => omega

/-- The page loop of `BuildIndex`: stop once the `maxDocs` budget is
reached, poll the context, fetch the next page (with the budget-shrunk
page size), stop on an empty page, process the page, and continue while
the source reports a further page. -/
def buildLoop (env : BuildEnv V) (opts : BuildOptions) (pageSize : Nat) (hps : 0 < pageSize)
    (tagsByID : Nat → String) (page : Nat) (rs : RunState V) :
    RunState V × Option BuildError :=
  if 0 < opts.maxDocs ∧ opts.maxDocs ≤ (rs.summary.documentsFetched : Int) then
    (rs, Option.none)
  else if ctxCancelled env rs.checks then
    ({ rs with checks := rs.checks + 1 }, some BuildError.cancelled)
  else
    let rs1 : RunState V := { rs with checks := rs.checks + 1 }
    if hstop : 0 < opts.maxDocs ∧ opts.maxDocs - (rs1.summary.documentsFetched : Int) ≤ 0 then
      (rs1, Option.none)
    else
      if hres : (listDocumentsPage env.sourceDocs page
          (effectivePageSize opts.maxDocs pageSize rs1.summary.documentsFetched)).1 = [] then
        (rs1, Option.none)
      else
        match processPage env tagsByID opts
            (listDocumentsPage env.sourceDocs page
              (effectivePageSize opts.maxDocs pageSize rs1.summary.documentsFetched)).1 rs1 with
        | (rs', some e) => (rs', some e)
        | (rs', Option.none) =>
          if (listDocumentsPage env.sourceDocs page
              (effectivePageSize opts.maxDocs pageSize rs1.summary.documentsFetched)).2 then
            buildLoop env opts pageSize hps tagsByID (page + 1) rs'
          else (rs', Option.none)
termination_by env.sourceDocs.length + 1 - page
decreasing_by
  have h1 := listDocumentsPage_ne_nil hres
  have h2 := effectivePageSize_pos opts.maxDocs pageSize rs1.summary.documentsFetched hps hstop
  have h3 : page - 1 ≤ (page - 1) *
      effectivePageSize opts.maxDocs pageSize rs1.summary.documentsFetched :=
    Nat.le_mul_of_pos_right _ h2
  omega

/-- The default page size applied by `BuildIndex` (`pageSize <= 0 → 100`). -/
def defaultedPageSize (ps : Int) : Nat := if ps ≤ 0 then 100 else ps.toNat

theorem defaultedPageSize_pos (ps : Int) : 0 < defaultedPageSize ps := by
  unfold defaultedPageSize
  split <;> omega

/-- The run state at the start of a build: fresh summary on the given
database. -/
def initialRunState (db0 : IndexDB V) : RunState V :=
  { db := db0, summary := ⟨0, 0, 0, 0, 0⟩, checks := 0, embedCalls := [] }

/-- `BuildIndex` from `indexer.go`: default the page size, load the tag
map (one context poll), then run the page loop from page 1. -/
def buildIndex (env : BuildEnv V) (opts : BuildOptions) (db0 : IndexDB V) :
    RunState V × Option BuildError :=
  if ctxCancelled env 0 then
    ({ initialRunState db0 with checks := 1 }, some BuildError.cancelled)
  else
    buildLoop env opts (defaultedPageSize opts.pageSize) (defaultedPageSize_pos opts.pageSize)
      (tagNameById env.sourceTags) 1 { initialRunState db0 with checks := 1 }

theorem processDocument_summary (env : BuildEnv V) (tagsByID : Nat → String)
    (opts : BuildOptions) (doc : PaperlessDocument) (rs : RunState V) :
    (processDocument env tagsByID opts doc rs).1.summary.documentsFetched =
      rs.summary.documentsFetched ∧
    ((processDocument env tagsByID opts doc rs).2 = Option.none →
      sumParts (processDocument env tagsByID opts doc rs).1.summary =
        sumParts rs.summary + 1) ∧
    ((processDocument env tagsByID opts doc rs).2 ≠ Option.none →
      (processDocument env tagsByID opts doc rs).1.summary = rs.summary) := by
  simp only [processDocument]
  split
  · exact ⟨rfl, fun h => by simp at h, fun h => rfl⟩
  · split
    · refine ⟨rfl, fun h => ?_, fun h => (h rfl).elim⟩
      simp only [sumParts]
      omega
    · split
      · refine ⟨rfl, fun h => ?_, fun h => (h rfl).elim⟩
        simp only [sumParts]
        omega
      · split
        · refine ⟨rfl, fun h => ?_, fun h => (h rfl).elim⟩
          simp only [sumParts]
          omega
        · split
          · refine ⟨rfl, fun h => ?_, fun h => (h rfl).elim⟩
            simp only [sumParts]
            omega
          · split
            · refine ⟨rfl, fun h => ?_, fun h => (h rfl).elim⟩
              simp only [sumParts]
              omega
            · refine ⟨rfl, fun h => ?_, fun h => (h rfl).elim⟩
              simp only [sumParts]
              omega

theorem processPage_summary (env : BuildEnv V) (tagsByID : Nat → String)
    (opts : BuildOptions) (docs : List PaperlessDocument) :
    ∀ rs : RunState V,
      ((processPage env tagsByID opts docs rs).2 = Option.none →
        (processPage env tagsByID opts docs rs).1.summary.documentsFetched +
            sumParts rs.summary =
          rs.summary.documentsFetched +
            sumParts (processPage env tagsByID opts docs rs).1.summary) ∧
      ((processPage env tagsByID opts docs rs).2 ≠ Option.none →
        (processPage env tagsByID opts docs rs).1.summary.documentsFetched +
            sumParts rs.summary =
          rs.summary.documentsFetched +
            sumParts (processPage env tagsByID opts docs rs).1.summary + 1) := by
  induction docs with
  | nil =>
    intro rs
    exact ⟨fun _ => rfl, fun h => (h rfl).elim⟩
  | cons doc rest ih =>
    intro rs
    by_cases hcond : 0 < opts.maxDocs ∧ opts.maxDocs ≤ (rs.summary.documentsFetched : Int)
    · have hstep0 : processPage env tagsByID opts (doc :: rest) rs = (rs, Option.none) := by
        simp only [processPage, if_pos hcond]
      rw [hstep0]
      exact ⟨fun _ => rfl, fun h => (h rfl).elim⟩
    · have hstep : processPage env tagsByID opts (doc :: rest) rs =
          match processDocument env tagsByID opts doc
              { rs with summary :=
                  { rs.summary with documentsFetched := rs.summary.documentsFetched + 1 } } with
          | (rs', some e) => (rs', some e)
          | (rs', Option.none) =>
            processPage env tagsByID opts rest
              { rs' with db := updateIndexState rs'.db doc.id } := by
        simp only [processPage, if_neg hcond]
      obtain ⟨hf, hnone, hsome⟩ := processDocument_summary env tagsByID opts doc
        { rs with summary :=
            { rs.summary with documentsFetched := rs.summary.documentsFetched + 1 } }
      cases hpd : processDocument env tagsByID opts doc
          { rs with summary :=
              { rs.summary with documentsFetched := rs.summary.documentsFetched + 1 } } with
      | mk rs' e =>
        rw [hpd] at hf hnone hsome
        cases e with
        | some err =>
          simp only [hpd] at hstep
          rw [hstep]
          have h1 := hsome (by simp)
          refine ⟨fun h => by simp at h, fun _ => ?_⟩
          rw [show (rs', some err).1 = rs' from rfl, h1]
          simp only [sumParts]
          omega
        | none =>
          simp only [hpd] at hstep
          rw [hstep]
          have h2 : sumParts rs'.summary = sumParts rs.summary + 1 := by
            have := hnone rfl
            simpa [sumParts] using this
          have h3 : rs'.summary.documentsFetched = rs.summary.documentsFetched + 1 := hf
          obtain ⟨ihnone, ihsome⟩ := ih { rs' with db := updateIndexState rs'.db doc.id }
          have hsum : ({ rs' with db := updateIndexState rs'.db doc.id } :
              RunState V).summary = rs'.summary := rfl
          rw [hsum] at ihnone ihsome
          exact ⟨fun h => by have := ihnone h; omega, fun h => by have := ihsome h; omega⟩

theorem buildLoop_summary (env : BuildEnv V) (opts : BuildOptions) (pageSize : Nat)
    (hps : 0 < pageSize) (tagsByID : Nat → String) :
    ∀ (page : Nat) (rs : RunState V),
      ((buildLoop env opts pageSize hps tagsByID page rs).2 = Option.none →
        (buildLoop env opts pageSize hps tagsByID page rs).1.summary.documentsFetched +
            sumParts rs.summary =
          rs.summary.documentsFetched +
            sumParts (buildLoop env opts pageSize hps tagsByID page rs).1.summary) ∧
      ((buildLoop env opts pageSize hps tagsByID page rs).1.summary.documentsFetched +
          sumParts rs.summary ≤
        rs.summary.documentsFetched +
          sumParts (buildLoop env opts pageSize hps tagsByID page rs).1.summary + 1) ∧
      (rs.summary.documentsFetched +
          sumParts (buildLoop env opts pageSize hps tagsByID page rs).1.summary ≤
        (buildLoop env opts pageSize hps tagsByID page rs).1.summary.documentsFetched +
          sumParts rs.summary) := by
  intro page rs
  induction page, rs using buildLoop.induct env opts pageSize hps tagsByID with
  | case1 page rs h =>
    have he : buildLoop env opts pageSize hps tagsByID page rs = (rs, Option.none) := by
      rw [buildLoop.eq_def]
      rw [if_pos h]
    have he1 : (buildLoop env opts pageSize hps tagsByID page rs).1 = rs := by rw [he]
    have he2 : (buildLoop env opts pageSize hps tagsByID page rs).2 = Option.none := by rw [he]
    rw [he1, he2]
    refine ⟨fun _ => rfl, ?_, ?_⟩ <;> omega
  | case2 page rs h1 h2 =>
    have he : buildLoop env opts pageSize hps tagsByID page rs =
        ({ rs with checks := rs.checks + 1 }, some BuildError.cancelled) := by
      rw [buildLoop.eq_def]
      rw [if_neg h1, if_pos h2]
    have he1 : (buildLoop env opts pageSize hps tagsByID page rs).1.summary = rs.summary := by
      rw [he]
    have he2 : (buildLoop env opts pageSize hps tagsByID page rs).2 =
        some BuildError.cancelled := by rw [he]
    rw [he1, he2]
    refine ⟨fun h => by simp at h, ?_, ?_⟩ <;> omega
  | case3 page rs h1 h2 rs1 h3 =>
    have h3' : 0 < opts.maxDocs ∧ opts.maxDocs - (rs.summary.documentsFetched : Int) ≤ 0 := h3
    have he : buildLoop env opts pageSize hps tagsByID page rs =
        ({ rs with checks := rs.checks + 1 }, Option.none) := by
      rw [buildLoop.eq_def]
      simp only [if_neg h1, if_neg h2]
      rw [dif_pos h3']
    have he1 : (buildLoop env opts pageSize hps tagsByID page rs).1.summary = rs.summary := by
      rw [he]
    have he2 : (buildLoop env opts pageSize hps tagsByID page rs).2 = Option.none := by rw [he]
    rw [he1, he2]
    refine ⟨fun _ => rfl, ?_, ?_⟩ <;> omega
  | case4 page rs h1 h2 rs1 h3 h4 =>
    have h3' : ¬(0 < opts.maxDocs ∧ opts.maxDocs - (rs.summary.documentsFetched : Int) ≤ 0) := h3
    have h4' : (listDocumentsPage env.sourceDocs page
        (effectivePageSize opts.maxDocs pageSize rs.summary.documentsFetched)).1 = [] := h4
    have he : buildLoop env opts pageSize hps tagsByID page rs =
        ({ rs with checks := rs.checks + 1 }, Option.none) := by
      rw [buildLoop.eq_def]
      simp only [if_neg h1, if_neg h2]
      rw [dif_neg h3', dif_pos h4']
    have he1 : (buildLoop env opts pageSize hps tagsByID page rs).1.summary = rs.summary := by
      rw [he]
    have he2 : (buildLoop env opts pageSize hps tagsByID page rs).2 = Option.none := by rw [he]
    rw [he1, he2]
    refine ⟨fun _ => rfl, ?_, ?_⟩ <;> omega
  | case5 page rs h1 h2 rs1 h3 h4 rs' e hpp =>
    have h3' : ¬(0 < opts.maxDocs ∧ opts.maxDocs - (rs.summary.documentsFetched : Int) ≤ 0) := h3
    have h4' : ¬(listDocumentsPage env.sourceDocs page
        (effectivePageSize opts.maxDocs pageSize rs.summary.documentsFetched)).1 = [] := h4
    have hpp' : processPage env tagsByID opts
        (listDocumentsPage env.sourceDocs page
          (effectivePageSize opts.maxDocs pageSize rs.summary.documentsFetched)).1
        { rs with checks := rs.checks + 1 } = (rs', some e) := hpp
    have he : buildLoop env opts pageSize hps tagsByID page rs = (rs', some e) := by
      rw [buildLoop.eq_def]
      simp only [if_neg h1, if_neg h2]
      rw [dif_neg h3', dif_neg h4', hpp']
    have he1 : (buildLoop env opts pageSize hps tagsByID page rs).1 = rs' := by rw [he]
    have he2 : (buildLoop env opts pageSize hps tagsByID page rs).2 = some e := by rw [he]
    obtain ⟨ppn, pps⟩ := processPage_summary env tagsByID opts
      (listDocumentsPage env.sourceDocs page
        (effectivePageSize opts.maxDocs pageSize rs.summary.documentsFetched)).1
      { rs with checks := rs.checks + 1 }
    rw [hpp'] at pps
    have hgap := pps (by simp)
    have hsum : ({ rs with checks := rs.checks + 1 } : RunState V).summary = rs.summary := rfl
    rw [hsum] at hgap
    simp only [] at hgap
    rw [he1, he2]
    refine ⟨fun h => by simp at h, ?_, ?_⟩ <;> omega
  | case6 page rs h1 h2 rs1 h3 h4 rs' hpp hnext ih =>
    have h3' : ¬(0 < opts.maxDocs ∧ opts.maxDocs - (rs.summary.documentsFetched : Int) ≤ 0) := h3
    have h4' : ¬(listDocumentsPage env.sourceDocs page
        (effectivePageSize opts.maxDocs pageSize rs.summary.documentsFetched)).1 = [] := h4
    have hpp' : processPage env tagsByID opts
        (listDocumentsPage env.sourceDocs page
          (effectivePageSize opts.maxDocs pageSize rs.summary.documentsFetched)).1
        { rs with checks := rs.checks + 1 } = (rs', Option.none) := hpp
    have hnext' : (listDocumentsPage env.sourceDocs page
        (effectivePageSize opts.maxDocs pageSize rs.summary.documentsFetched)).2 = true := hnext
    have he : buildLoop env opts pageSize hps tagsByID page rs =
        buildLoop env opts pageSize hps tagsByID (page + 1) rs' := by
      rw [buildLoop.eq_def]
      simp only [if_neg h1, if_neg h2]
      rw [dif_neg h3', dif_neg h4', hpp']
      simp only [if_pos hnext']
    obtain ⟨ppn, pps⟩ := processPage_summary env tagsByID opts
      (listDocumentsPage env.sourceDocs page
        (effectivePageSize opts.maxDocs pageSize rs.summary.documentsFetched)).1
      { rs with checks := rs.checks + 1 }
    rw [hpp'] at ppn
    have hgap := ppn rfl
    have hsum : ({ rs with checks := rs.checks + 1 } : RunState V).summary = rs.summary := rfl
    rw [hsum] at hgap
    simp only [] at hgap
    obtain ⟨ih1, ih2, ih3⟩ := ih
    rw [he]
    refine ⟨fun h => ?_, ?_, ?_⟩
    · have := ih1 h
      omega
    · omega
    · omega
  | case7 page rs h1 h2 rs1 h3 h4 rs' hpp hnext =>
    have h3' : ¬(0 < opts.maxDocs ∧ opts.maxDocs - (rs.summary.documentsFetched : Int) ≤ 0) := h3
    have h4' : ¬(listDocumentsPage env.sourceDocs page
        (effectivePageSize opts.maxDocs pageSize rs.summary.documentsFetched)).1 = [] := h4
    have hpp' : processPage env tagsByID opts
        (listDocumentsPage env.sourceDocs page
          (effectivePageSize opts.maxDocs pageSize rs.summary.documentsFetched)).1
        { rs with checks := rs.checks + 1 } = (rs', Option.none) := hpp
    have hnext' : ¬(listDocumentsPage env.sourceDocs page
        (effectivePageSize opts.maxDocs pageSize rs.summary.documentsFetched)).2 = true := hnext
    have he : buildLoop env opts pageSize hps tagsByID page rs = (rs', Option.none) := by
      rw [buildLoop.eq_def]
      simp only [if_neg h1, if_neg h2]
      rw [dif_neg h3', dif_neg h4', hpp']
      simp only [if_neg hnext']
    have he1 : (buildLoop env opts pageSize hps tagsByID page rs).1 = rs' := by rw [he]
    have he2 : (buildLoop env opts pageSize hps tagsByID page rs).2 = Option.none := by rw [he]
    obtain ⟨ppn, pps⟩ := processPage_summary env tagsByID opts
      (listDocumentsPage env.sourceDocs page
        (effectivePageSize opts.maxDocs pageSize rs.summary.documentsFetched)).1
      { rs with checks := rs.checks + 1 }
    rw [hpp'] at ppn
    have hgap := ppn rfl
    have hsum : ({ rs with checks := rs.checks + 1 } : RunState V).summary = rs.summary := rfl
    rw [hsum] at hgap
    simp only [] at hgap
    rw [he1, he2]
    refine ⟨fun _ => ?_, ?_, ?_⟩ <;> omega

/-- C2 (amended): every build satisfies
`indexed + skipped + failed ≤ fetched ≤ indexed + skipped + failed + 1`,
and every build that returns without error satisfies
`fetched = indexed + skipped + failed` exactly.  (A build that returns
early from inside document processing — after counting a document as
fetched but before categorising it — leaves `fetched` ahead by exactly
one; see the counterexample to the unamended claim.) -/
theorem buildIndex_counts (env : BuildEnv V) (opts : BuildOptions) (db0 : IndexDB V) :
    sumParts (buildIndex env opts db0).1.summary ≤
      (buildIndex env opts db0).1.summary.documentsFetched ∧
    (buildIndex env opts db0).1.summary.documentsFetched ≤
      sumParts (buildIndex env opts db0).1.summary + 1 ∧
    ((buildIndex env opts db0).2 = Option.none →
      (buildIndex env opts db0).1.summary.documentsFetched =
        sumParts (buildIndex env opts db0).1.summary) := by
  unfold buildIndex
  split
  · exact ⟨Nat.le_refl _, Nat.le_succ _, fun _ => rfl⟩
  · obtain ⟨bl1, bl2, bl3⟩ := buildLoop_summary env opts (defaultedPageSize opts.pageSize)
      (defaultedPageSize_pos opts.pageSize) (tagNameById env.sourceTags) 1
      { initialRunState db0 with checks := 1 }
    have hz : ({ initialRunState db0 with checks := 1 } : RunState V).summary =
        ⟨0, 0, 0, 0, 0⟩ := rfl
    rw [hz] at bl1 bl2 bl3
    have h0 : sumParts ⟨0, 0, 0, 0, 0⟩ = 0 := rfl
    have h00 : (BuildSummary.mk 0 0 0 0 0).documentsFetched = 0 := rfl
    rw [h0, h00] at bl1 bl2 bl3
    refine ⟨?_, ?_, fun h => ?_⟩
    · omega
    · omega
    · have := bl1 h
      omega

/-- A one-document source whose context is cancelled on its third poll:
the tag-load and page polls pass, the per-document poll fails. -/
def envC2cancel : BuildEnv Unit :=
  { sourceDocs := [{ id := 1, title := "t", content := "c", tags := [], modified := 5 }]
    sourceTags := []
    generateEmbedding := fun _ => Except.ok ()
    upsertFails := fun _ => false
    cancelAt := 2 }

/-- An empty store. -/
def dbEmpty : IndexDB Unit :=
  { documents := [], embeddings := [], failures := [], lastPaperlessId := 0, now := 1 }

/-- All-default build options. -/
def optsDefault : BuildOptions := { pageSize := 0, maxDocs := 0, tagName := "" }

/-- C2 counterexample: a build cancelled between counting a document as
fetched and categorising it returns a summary with `fetched = 1` but
`indexed + skipped + failed = 0`, refuting
`fetched == indexed + skipped + failed` for builds that return early on
cancellation. -/
theorem buildIndex_counts_counterexample :
    (buildIndex envC2cancel optsDefault dbEmpty).2 = some BuildError.cancelled ∧
    (buildIndex envC2cancel optsDefault dbEmpty).1.summary.documentsFetched = 1 ∧
    sumParts (buildIndex envC2cancel optsDefault dbEmpty).1.summary = 0 ∧
    (buildIndex envC2cancel optsDefault dbEmpty).1.summary.documentsFetched ≠
      sumParts (buildIndex envC2cancel optsDefault dbEmpty).1.summary := by
  have he : buildIndex envC2cancel optsDefault dbEmpty =
      ({ db := dbEmpty
         summary := { documentsFetched := 1, documentsIndexed := 0, documentsSkipped := 0,
                      documentsFailed := 0, embeddingsGenerated := 0 }
         checks := 3, embedCalls := [] }, some BuildError.cancelled) := by
    rw [buildIndex]
    rw [buildLoop.eq_def]
    simp [envC2cancel, optsDefault, dbEmpty, ctxCancelled, listDocumentsPage,
      effectivePageSize, defaultedPageSize, initialRunState, processPage, processDocument]
  rw [he]
  exact ⟨rfl, rfl, rfl, by decide⟩

/-- A cancellation-free empty source. -/
def envC2ok : BuildEnv Unit :=
  { sourceDocs := [], sourceTags := [], generateEmbedding := fun _ => Except.ok ()
    upsertFails := fun _ => false, cancelAt := 5 }

/-- C2 witness: the amended claim applied to a concrete error-free build. -/
theorem buildIndex_counts_witness :
    (buildIndex envC2ok optsDefault dbEmpty).2 = Option.none ∧
    (buildIndex envC2ok optsDefault dbEmpty).1.summary.documentsFetched =
      sumParts (buildIndex envC2ok optsDefault dbEmpty).1.summary := by
  have h2 : (buildIndex envC2ok optsDefault dbEmpty).2 = Option.none := by
    rw [buildIndex]
    rw [buildLoop.eq_def]
    simp [envC2ok, optsDefault, dbEmpty, ctxCancelled, listDocumentsPage,
      effectivePageSize, defaultedPageSize, initialRunState]
  exact ⟨h2, (buildIndex_counts envC2ok optsDefault dbEmpty).2.2 h2⟩

theorem unchangedSkip_iff (db : IndexDB V) (doc : PaperlessDocument) :
    unchangedSkip db doc = true ↔
      ∃ existing, getDocumentByPaperlessID db doc.id = some existing ∧
        existing.lastModified = doc.modified ∧ existing.embeddedAt ≠ 0 := by
  unfold unchangedSkip
  cases h : getDocumentByPaperlessID db doc.id with
  | none => simp [h]
  | some ex => simp [h]

/-- C5: during a build, a fetched document whose stored counterpart
exists with an unchanged last-modified timestamp and a non-zero
embedded-at time is counted as skipped and the embedder is not called for
it; a document that reaches the change-detection step (passes the tag
filter, has non-empty embedding text) and fails that test — new document,
changed timestamp, or zero embedded-at — is re-embedded: the embedder is
invoked on its embedding text. -/
theorem processDocument_changeDetection (env : BuildEnv V) (tagsByID : Nat → String)
    (opts : BuildOptions) (doc : PaperlessDocument) (rs : RunState V)
    (hc : ctxCancelled env rs.checks = false) :
    ((∃ existing, getDocumentByPaperlessID rs.db doc.id = some existing ∧
        existing.lastModified = doc.modified ∧ existing.embeddedAt ≠ 0) →
      (processDocument env tagsByID opts doc rs).1.summary.documentsSkipped =
          rs.summary.documentsSkipped + 1 ∧
      (processDocument env tagsByID opts doc rs).1.embedCalls = rs.embedCalls ∧
      (processDocument env tagsByID opts doc rs).1.summary.documentsIndexed =
        rs.summary.documentsIndexed ∧
      (processDocument env tagsByID opts doc rs).1.summary.documentsFailed =
        rs.summary.documentsFailed) ∧
    ((opts.tagName = "" ∨ documentHasTag doc tagsByID opts.tagName = true) →
      buildEmbeddingText doc.title (formatTags doc.tags tagsByID) doc.content ≠ "" →
      ¬(∃ existing, getDocumentByPaperlessID rs.db doc.id = some existing ∧
          existing.lastModified = doc.modified ∧ existing.embeddedAt ≠ 0) →
      (processDocument env tagsByID opts doc rs).1.embedCalls =
        rs.embedCalls ++
          [buildEmbeddingText doc.title (formatTags doc.tags tagsByID) doc.content]) := by
  have hcc : ¬ctxCancelled env rs.checks = true := by simp [hc]
  constructor
  · intro hex
    have hus : unchangedSkip rs.db doc = true := (unchangedSkip_iff rs.db doc).mpr hex
    simp only [processDocument]
    rw [if_neg hcc]
    by_cases hskip : opts.tagName ≠ "" ∧ ¬documentHasTag doc tagsByID opts.tagName
    · rw [if_pos hskip]
      exact ⟨rfl, rfl, rfl, rfl⟩
    · rw [if_neg hskip]
      by_cases he : buildEmbeddingText doc.title (formatTags doc.tags tagsByID) doc.content = ""
      · rw [if_pos he]
        exact ⟨rfl, rfl, rfl, rfl⟩
      · rw [if_neg he, if_pos hus]
        exact ⟨rfl, rfl, rfl, rfl⟩
  · intro htag htext hnex
    have hch : ¬unchangedSkip rs.db doc = true := by
      intro h
      exact hnex ((unchangedSkip_iff rs.db doc).mp h)
    have hskip : ¬(opts.tagName ≠ "" ∧ ¬documentHasTag doc tagsByID opts.tagName) := by
      rcases htag with h | h
      · intro hcon
        exact hcon.1 h
      · intro hcon
        rw [h] at hcon
        exact hcon.2 (by simp)
    simp only [processDocument]
    rw [if_neg hcc, if_neg hskip, if_neg htext, if_neg hch]
    cases hge : env.generateEmbedding
        (buildEmbeddingText doc.title (formatTags doc.tags tagsByID) doc.content) with
    | error msg => rfl
    | ok vec =>
      by_cases hup : env.upsertFails doc.id = true
      · simp [hup]
      · simp [hup]

/-- C5 witness: a stored, unchanged, already-embedded document at a
concrete state is skipped without an embedder call. -/
theorem processDocument_changeDetection_witness :
    ctxCancelled envC2ok 0 = false ∧
    (∃ existing,
        getDocumentByPaperlessID
          ({ documents := [⟨1, "u", "t", "", 3, 5⟩], embeddings := [], failures := [],
             lastPaperlessId := 0, now := 1 } : IndexDB Unit) 1 = some existing ∧
        existing.lastModified = 5 ∧ existing.embeddedAt ≠ 0) ∧
    (processDocument envC2ok (fun _ => "") optsDefault ⟨1, "t", "c", [], 5⟩
        { db := { documents := [⟨1, "u", "t", "", 3, 5⟩], embeddings := [], failures := [],
                  lastPaperlessId := 0, now := 1 },
          summary := ⟨0, 0, 0, 0, 0⟩, checks := 0, embedCalls := [] }).1.summary.documentsSkipped =
      (⟨0, 0, 0, 0, 0⟩ : BuildSummary).documentsSkipped + 1 ∧
    (processDocument envC2ok (fun _ => "") optsDefault ⟨1, "t", "c", [], 5⟩
        { db := { documents := [⟨1, "u", "t", "", 3, 5⟩], embeddings := [], failures := [],
                  lastPaperlessId := 0, now := 1 },
          summary := ⟨0, 0, 0, 0, 0⟩, checks := 0, embedCalls := [] }).1.embedCalls = [] := by
  have hc : ctxCancelled envC2ok (0 : Nat) = false := by decide
  have hex : ∃ existing,
      getDocumentByPaperlessID
        ({ documents := [⟨1, "u", "t", "", 3, 5⟩], embeddings := [], failures := [],
           lastPaperlessId := 0, now := 1 } : IndexDB Unit) 1 = some existing ∧
      existing.lastModified = 5 ∧ existing.embeddedAt ≠ 0 :=
    ⟨⟨1, "u", "t", "", 3, 5⟩, by decide, by decide, by decide⟩
  have h := (processDocument_changeDetection envC2ok (fun _ => "") optsDefault
    ⟨1, "t", "c", [], 5⟩
    { db := { documents := [⟨1, "u", "t", "", 3, 5⟩], embeddings := [], failures := [],
              lastPaperlessId := 0, now := 1 },
      summary := ⟨0, 0, 0, 0, 0⟩, checks := 0, embedCalls := [] } hc).1 hex
  exact ⟨hc, hex, h.1, h.2.1⟩

theorem find?_filter_ne (l : List (Nat × String)) (pid pid' : Nat) (h : pid' ≠ pid) :
    (l.filter fun f => decide (f.1 ≠ pid)).find? (fun f => decide (f.1 = pid')) =
      l.find? (fun f => decide (f.1 = pid')) := by
  induction l with
  | nil => rfl
  | cons f rest ih =>
    by_cases hfp : f.1 = pid
    · have e1 : (f :: rest).filter (fun f => decide (f.1 ≠ pid)) =
          rest.filter (fun f => decide (f.1 ≠ pid)) := by
        simp [List.filter_cons, hfp]
      have e2 : (f :: rest).find? (fun f => decide (f.1 = pid')) =
          rest.find? (fun f => decide (f.1 = pid')) := by
        simp [List.find?_cons, hfp, Ne.symm h]
      rw [e1, e2, ih]
    · have e1 : (f :: rest).filter (fun f => decide (f.1 ≠ pid)) =
          f :: rest.filter (fun f => decide (f.1 ≠ pid)) := by
        simp [List.filter_cons, hfp]
      rw [e1]
      by_cases hf : f.1 = pid'
      · have e2 : (f :: rest.filter (fun f => decide (f.1 ≠ pid))).find?
            (fun f => decide (f.1 = pid')) = some f := by
          simp [List.find?_cons, hf]
        have e3 : (f :: rest).find? (fun f => decide (f.1 = pid')) = some f := by
          simp [List.find?_cons, hf]
        rw [e2, e3]
      · have e2 : (f :: rest.filter (fun f => decide (f.1 ≠ pid))).find?
            (fun f => decide (f.1 = pid')) =
            (rest.filter (fun f => decide (f.1 ≠ pid))).find?
              (fun f => decide (f.1 = pid')) := by
          simp [List.find?_cons, hf]
        have e3 : (f :: rest).find? (fun f => decide (f.1 = pid')) =
            rest.find? (fun f => decide (f.1 = pid')) := by
          simp [List.find?_cons, hf]
        rw [e2, e3, ih]

theorem lookupFailure_record_self (db : IndexDB V) (pid : Nat) (msg : String) :
    lookupFailure (recordIndexFailure db pid msg) pid = some msg := by
  unfold lookupFailure recordIndexFailure
  rw [List.find?_append]
  have hnone : (db.failures.filter fun f => decide (f.1 ≠ pid)).find?
      (fun f => decide (f.1 = pid)) = Option.none := by
    rw [List.find?_eq_none]
    intro x hx
    have := (List.mem_filter.mp hx).2
    simp only [decide_eq_true_iff] at this ⊢
    exact this
  rw [hnone]
  simp

theorem lookupFailure_record_other (db : IndexDB V) (pid pid' : Nat) (msg : String)
    (h : pid' ≠ pid) :
    lookupFailure (recordIndexFailure db pid msg) pid' = lookupFailure db pid' := by
  unfold lookupFailure recordIndexFailure
  rw [List.find?_append]
  have h2 : (([(pid, msg)] : List (Nat × String)).find? fun f => decide (f.1 = pid')) =
      Option.none := by
    simp [Ne.symm h]
  rw [h2, find?_filter_ne db.failures pid pid' h]
  cases db.failures.find? (fun f => decide (f.1 = pid')) <;> rfl

theorem lookupFailure_clear_self (db : IndexDB V) (pid : Nat) :
    lookupFailure (clearIndexFailure db pid) pid = Option.none := by
  unfold lookupFailure clearIndexFailure
  have hnone : (db.failures.filter fun f => decide (f.1 ≠ pid)).find?
      (fun f => decide (f.1 = pid)) = Option.none := by
    rw [List.find?_eq_none]
    intro x hx
    have := (List.mem_filter.mp hx).2
    simp only [decide_eq_true_iff] at this ⊢
    exact this
  rw [hnone]
  rfl

theorem lookupFailure_clear_other (db : IndexDB V) (pid pid' : Nat) (h : pid' ≠ pid) :
    lookupFailure (clearIndexFailure db pid) pid' = lookupFailure db pid' := by
  unfold lookupFailure clearIndexFailure
  rw [find?_filter_ne db.failures pid pid' h]

theorem lookupFailure_upsertNet (db : IndexDB V) (d : StoredDocument) (content : String)
    (vec : V) (pid : Nat) :
    lookupFailure (upsertNet db d content vec) pid = lookupFailure db pid := rfl

/-- C6: when the embedder fails on a document that reached the embedding
step, the failure is recorded in the failure table keyed by the document's
external id, the document is counted as failed (not indexed), and
`processDocument` returns without error so the build continues with the
next document; on a later successful embed (embedder and storage both
succeeding) the failure record for that id is removed; failure records of
other documents are never touched by processing this one.  Together these
keep a failure record exactly for documents whose most recent embedding
attempt did not succeed. -/
theorem processDocument_failureIsolation (env : BuildEnv V) (tagsByID : Nat → String)
    (opts : BuildOptions) (doc : PaperlessDocument) (rs : RunState V)
    (hc : ctxCancelled env rs.checks = false)
    (htag : opts.tagName = "" ∨ documentHasTag doc tagsByID opts.tagName = true)
    (htext : buildEmbeddingText doc.title (formatTags doc.tags tagsByID) doc.content ≠ "")
    (hch : unchangedSkip rs.db doc = false) :
    (∀ msg, env.generateEmbedding
        (buildEmbeddingText doc.title (formatTags doc.tags tagsByID) doc.content) =
          Except.error msg →
      (processDocument env tagsByID opts doc rs).2 = Option.none ∧
      (processDocument env tagsByID opts doc rs).1.summary.documentsFailed =
        rs.summary.documentsFailed + 1 ∧
      (processDocument env tagsByID opts doc rs).1.summary.documentsIndexed =
        rs.summary.documentsIndexed ∧
      lookupFailure (processDocument env tagsByID opts doc rs).1.db doc.id =
        some ("generate embedding for document " ++ toString doc.id ++ ": " ++ msg)) ∧
    (∀ vec, env.generateEmbedding
        (buildEmbeddingText doc.title (formatTags doc.tags tagsByID) doc.content) =
          Except.ok vec →
      env.upsertFails doc.id = false →
      (processDocument env tagsByID opts doc rs).2 = Option.none ∧
      (processDocument env tagsByID opts doc rs).1.summary.documentsIndexed =
        rs.summary.documentsIndexed + 1 ∧
      lookupFailure (processDocument env tagsByID opts doc rs).1.db doc.id = Option.none) ∧
    (∀ pid, pid ≠ doc.id →
      lookupFailure (processDocument env tagsByID opts doc rs).1.db pid =
        lookupFailure rs.db pid) := by
  have hcc : ¬ctxCancelled env rs.checks = true := by simp [hc]
  have hch' : ¬unchangedSkip rs.db doc = true := by simp [hch]
  have hskip : ¬(opts.tagName ≠ "" ∧ ¬documentHasTag doc tagsByID opts.tagName) := by
    rcases htag with h | h
    · intro hcon
      exact hcon.1 h
    · intro hcon
      rw [h] at hcon
      exact hcon.2 (by simp)
  refine ⟨?_, ?_, ?_⟩
  · intro msg hmsg
    simp only [processDocument]
    rw [if_neg hcc, if_neg hskip, if_neg htext, if_neg hch', hmsg]
    exact ⟨rfl, rfl, rfl, lookupFailure_record_self rs.db doc.id _⟩
  · intro vec hvec hup
    simp only [processDocument]
    rw [if_neg hcc, if_neg hskip, if_neg htext, if_neg hch', hvec]
    simp only [hup]
    refine ⟨rfl, rfl, ?_⟩
    exact lookupFailure_clear_self _ doc.id
  · intro pid hpid
    simp only [processDocument]
    rw [if_neg hcc, if_neg hskip, if_neg htext, if_neg hch']
    cases hge : env.generateEmbedding
        (buildEmbeddingText doc.title (formatTags doc.tags tagsByID) doc.content) with
    | error msg =>
      exact lookupFailure_record_other rs.db doc.id pid _ hpid
    | ok vec =>
      by_cases hup : env.upsertFails doc.id = true
      · simp only [hup]
        exact lookupFailure_record_other rs.db doc.id pid _ hpid
      · have hupf : env.upsertFails doc.id = false := by
          revert hup
          cases env.upsertFails doc.id <;> simp
        simp only [hupf]
        exact (lookupFailure_clear_other _ doc.id pid hpid).trans
          (lookupFailure_upsertNet rs.db _ _ vec pid)

/-- A source whose embedder always fails. -/
def envC6fail : BuildEnv Unit :=
  { sourceDocs := [], sourceTags := [], generateEmbedding := fun _ => Except.error "boom"
    upsertFails := fun _ => false, cancelAt := 5 }

/-- C6 witness: a concrete failing embed records the failure keyed by the
external id, counts the document as failed, and returns no fatal error. -/
theorem processDocument_failureIsolation_witness :
    ctxCancelled envC6fail 0 = false ∧
    buildEmbeddingText "t" (formatTags [] (fun _ => "")) "c" ≠ "" ∧
    unchangedSkip dbEmpty ⟨1, "t", "c", [], 5⟩ = false ∧
    ((processDocument envC6fail (fun _ => "") optsDefault ⟨1, "t", "c", [], 5⟩
        { db := dbEmpty, summary := ⟨0, 0, 0, 0, 0⟩, checks := 0, embedCalls := [] }).2 =
      Option.none ∧
    (processDocument envC6fail (fun _ => "") optsDefault ⟨1, "t", "c", [], 5⟩
        { db := dbEmpty, summary := ⟨0, 0, 0, 0, 0⟩, checks := 0,
          embedCalls := [] }).1.summary.documentsFailed =
      (⟨0, 0, 0, 0, 0⟩ : BuildSummary).documentsFailed + 1 ∧
    (processDocument envC6fail (fun _ => "") optsDefault ⟨1, "t", "c", [], 5⟩
        { db := dbEmpty, summary := ⟨0, 0, 0, 0, 0⟩, checks := 0,
          embedCalls := [] }).1.summary.documentsIndexed =
      (⟨0, 0, 0, 0, 0⟩ : BuildSummary).documentsIndexed ∧
    lookupFailure (processDocument envC6fail (fun _ => "") optsDefault ⟨1, "t", "c", [], 5⟩
        { db := dbEmpty, summary := ⟨0, 0, 0, 0, 0⟩, checks := 0,
          embedCalls := [] }).1.db 1 =
      some ("generate embedding for document " ++ toString (1 : Nat) ++ ": " ++ "boom")) := by
  have hc : ctxCancelled envC6fail (0 : Nat) = false := by decide
  have htext : buildEmbeddingText "t" (formatTags [] (fun _ => "")) "c" ≠ "" := by decide
  have hch : unchangedSkip dbEmpty (⟨1, "t", "c", [], 5⟩ : PaperlessDocument) = false := by
    decide
  have h := ((processDocument_failureIsolation envC6fail (fun _ => "") optsDefault
    ⟨1, "t", "c", [], 5⟩
    { db := dbEmpty, summary := ⟨0, 0, 0, 0, 0⟩, checks := 0, embedCalls := [] }
    hc (Or.inl rfl) htext hch).1) "boom" rfl
  exact ⟨hc, htext, hch, h.1, h.2.1, h.2.2.1, h.2.2.2⟩

/-- The text formula as claim C8 words it (`"<title>. Tags: <tag names
sorted lexicographically, comma-joined>"`, optionally followed by a blank
line and the body): stated from the claim, to compare with the code's
`buildEmbeddingText`. -/
def claimTagsText (title : String) (tagNames : List String) (body : String) : String :=
  (title ++ ". Tags: " ++ String.intercalate ", " (sortStrings tagNames)) ++
    (if trimString body = "" then "" else "\n\n" ++ trimString body)

theorem append_tags_ne_empty (a b : String) : a ++ ". Tags: " ++ b ≠ "" := by
  intro h
  have hlen := congrArg String.length h
  rw [String.length_append, String.length_append] at hlen
  have h8 : (". Tags: " : String).length = 8 := by decide
  have h0 : ("" : String).length = 0 := by decide
  rw [h8, h0] at hlen
  omega

unseal List.merge List.mergeSort in
/-- C8 counterexample: a document with no tags gets the text `"A"` (the
`". Tags: "` part is omitted), not the claimed `"A. Tags: "`. -/
theorem buildEmbeddingText_counterexample :
    buildEmbeddingText "A" (formatTags [] (fun _ => "")) "" = "A" ∧
    claimTagsText "A" [] "" = "A. Tags: " ∧
    buildEmbeddingText "A" (formatTags [] (fun _ => "")) "" ≠ claimTagsText "A" [] "" := by
  refine ⟨by decide, by decide, by decide⟩

/-- C8 (amended): every embedder call made while processing a document
passes exactly `buildEmbeddingText title (formatTags tags) content`; for a
document with at least one tag (non-empty trimmed tag string) that text is
`"<trimmed title>. Tags: <resolved tag names sorted lexicographically,
comma-joined>"`, followed by a blank line and the trimmed body when the
body is non-empty — the `". Tags: "` part is omitted for a document with
no tags; and a document whose text is empty is counted as skipped and
never embedded. -/
theorem buildEmbeddingText_spec (env : BuildEnv V) (tagsByID : Nat → String)
    (opts : BuildOptions) (doc : PaperlessDocument) (rs : RunState V) :
    ((processDocument env tagsByID opts doc rs).1.embedCalls = rs.embedCalls ∨
      (processDocument env tagsByID opts doc rs).1.embedCalls = rs.embedCalls ++
        [buildEmbeddingText doc.title (formatTags doc.tags tagsByID) doc.content]) ∧
    (∀ title tags content, trimString tags ≠ "" →
      buildEmbeddingText title tags content =
        trimString title ++ ". Tags: " ++ trimString tags ++
          (if trimString content = "" then "" else "\n\n" ++ trimString content)) ∧
    (∀ (tagIds : List Nat) (tagsByID2 : Nat → String), tagIds ≠ [] →
      formatTags tagIds tagsByID2 = String.intercalate ", "
        (sortStrings (tagIds.map fun id =>
          if tagsByID2 id = "" then "tag-" ++ toString id else tagsByID2 id))) ∧
    (ctxCancelled env rs.checks = false →
      buildEmbeddingText doc.title (formatTags doc.tags tagsByID) doc.content = "" →
      (opts.tagName = "" ∨ documentHasTag doc tagsByID opts.tagName = true) →
      (processDocument env tagsByID opts doc rs).1.summary.documentsSkipped =
        rs.summary.documentsSkipped + 1 ∧
      (processDocument env tagsByID opts doc rs).1.embedCalls = rs.embedCalls) := by
  refine ⟨?_, ?_, ?_, ?_⟩
  · simp only [processDocument]
    split
    · exact Or.inl rfl
    · split
      · exact Or.inl rfl
      · split
        · exact Or.inl rfl
        · split
          · exact Or.inl rfl
          · split
            · exact Or.inr rfl
            · split
              · exact Or.inr rfl
              · exact Or.inr rfl
  · intro title tags content htags
    have hb := append_tags_ne_empty (trimString title) (trimString tags)
    simp only [buildEmbeddingText, FormatDocumentText, if_neg htags]
    by_cases hcon : trimString content = ""
    · rw [if_pos hcon, if_pos hcon]
      simp [String.append_assoc]
    · rw [if_neg hcon, if_neg hb, if_neg hcon]
      simp [String.append_assoc]
  · intro tagIds tagsByID2 hne
    unfold formatTags
    rw [if_neg (by simpa using hne)]
  · intro hc htext htag
    have hcc : ¬ctxCancelled env rs.checks = true := by simp [hc]
    have hskip : ¬(opts.tagName ≠ "" ∧ ¬documentHasTag doc tagsByID opts.tagName) := by
      rcases htag with h | h
      · intro hcon
        exact hcon.1 h
      · intro hcon
        rw [h] at hcon
        exact hcon.2 (by simp)
    simp only [processDocument]
    rw [if_neg hcc, if_neg hskip, if_pos htext]
    exact ⟨rfl, rfl⟩

/-- C8 witness: the amended claim applied at a concrete document with one
tag, plus the claimed formula evaluated on it. -/
theorem buildEmbeddingText_spec_witness :
    ((processDocument envC2ok (fun _ => "x") optsDefault ⟨1, "t", "c", [7], 5⟩
        { db := dbEmpty, summary := ⟨0, 0, 0, 0, 0⟩, checks := 0, embedCalls := [] }).1.embedCalls =
        ([] : List String) ∨
      (processDocument envC2ok (fun _ => "x") optsDefault ⟨1, "t", "c", [7], 5⟩
        { db := dbEmpty, summary := ⟨0, 0, 0, 0, 0⟩, checks := 0, embedCalls := [] }).1.embedCalls =
        [] ++ [buildEmbeddingText "t" (formatTags [7] (fun _ => "x")) "c"]) ∧
    trimString "x" ≠ "" ∧
    buildEmbeddingText "t" "x" "c" =
      trimString "t" ++ ". Tags: " ++ trimString "x" ++
        (if trimString "c" = "" then "" else "\n\n" ++ trimString "c") ∧
    formatTags [7] (fun _ => "x") = String.intercalate ", "
      (sortStrings ([7].map fun id => if (fun _ => "x") id = "" then "tag-" ++ toString id
        else (fun _ => "x") id)) := by
  obtain ⟨ha, hb, hc, _⟩ := buildEmbeddingText_spec envC2ok (fun _ => "x") optsDefault
    ⟨1, "t", "c", [7], 5⟩
    { db := dbEmpty, summary := ⟨0, 0, 0, 0, 0⟩, checks := 0, embedCalls := [] }
  exact ⟨ha, by decide, hb "t" "x" "c" (by decide), hc [7] (fun _ => "x") (by decide)⟩

end Indexer

/-! ### SearchIndex (`cmd/pgo-rag/internal/indexer/indexer.go`)

`SearchIndex(ctx, db, embedder, query, limit, threshold)`: reject an
empty post-trim query, default a non-positive `limit` to `10` and a
non-positive `threshold` to `0.7`, poll the context, embed the query
once, and delegate to `SearchSimilar`.  The measured `QueryTimeMs` is
real time and is not modelled; the nil-collaborator checks cannot fire
because the collaborators are total values here. -/

/-- The error outcomes of `SearchIndex` representable in this model. -/
inductive SearchError where
  | queryRequired
  | cancelled
  | embedFailed (msg : String)
deriving DecidableEq, Repr

/-- `indexer.SearchSummary` without the latency field. -/
structure SearchSummary where
  results : List SearchResult
  totalResults : Nat
deriving DecidableEq, Repr

/-- `SearchIndex` from `indexer.go`, parametric in `math.Sqrt`; the store
is the row list scanned by `SearchSimilar`, the context is a cancellation
flag polled once before embedding. -/
def searchIndex (sqrt : ℚ → ℚ) (rows : List EmbeddingRow)
    (embed : String → Except String (List ℚ)) (cancelled : Bool)
    (query : String) (limit : Int) (threshold : ℚ) : Except SearchError SearchSummary :=
  if Indexer.trimString query = "" then Except.error SearchError.queryRequired
  else
    let limit := if limit ≤ 0 then 10 else limit
    let threshold := if threshold ≤ 0 then (7 : ℚ) / 10 else threshold
    if cancelled then Except.error SearchError.cancelled
    else
      match embed query with
      | Except.error msg => Except.error (SearchError.embedFailed msg)
      | Except.ok vector =>
        Except.ok { results := searchSimilar sqrt rows vector limit threshold
                    totalResults := (searchSimilar sqrt rows vector limit threshold).length }

unseal List.merge List.mergeSort in
/-- C7 counterexample: a threshold of `2` — outside `[0, 1]` — is not
rejected: the search runs and returns success, refuting "a threshold
outside [0,1] is rejected as a ValidationError" at `SearchIndex`. -/
theorem searchIndex_threshold_counterexample :
    ¬((2 : ℚ) ≤ 1) ∧
    searchIndex (fun _ => 1) [] (fun _ => Except.ok [1]) false "q" 5 2 =
      Except.ok { results := [], totalResults := 0 } := by
  constructor
  · norm_num
  · rfl

/-- C7 (amended): `SearchIndex` rejects a query that is empty after
trimming; it never rejects a threshold: a non-positive limit is replaced
by `10` and a non-positive threshold by `0.7` before the search runs, and
any other threshold — including values above `1` — is passed through to
the store search unchanged, without error. -/
theorem searchIndex_validation (sqrt : ℚ → ℚ) (rows : List EmbeddingRow)
    (embed : String → Except String (List ℚ)) (c : Bool)
    (query : String) (limit : Int) (threshold : ℚ) :
    (Indexer.trimString query = "" →
      searchIndex sqrt rows embed c query limit threshold =
        Except.error SearchError.queryRequired) ∧
    (Indexer.trimString query ≠ "" → c = false →
      ∀ v, embed query = Except.ok v →
        searchIndex sqrt rows embed c query limit threshold =
          Except.ok
            { results := searchSimilar sqrt rows v (if limit ≤ 0 then 10 else limit)
                (if threshold ≤ 0 then (7 : ℚ) / 10 else threshold)
              totalResults := (searchSimilar sqrt rows v (if limit ≤ 0 then 10 else limit)
                (if threshold ≤ 0 then (7 : ℚ) / 10 else threshold)).length }) := by
  constructor
  · intro h
    simp only [searchIndex]
    rw [if_pos h]
  · intro hq hcf v hv
    simp only [searchIndex]
    rw [if_neg hq, hcf, hv]
    rfl

/-- C7 witness: a non-positive limit and non-positive threshold are
replaced by the defaults `10` and `0.7` on a concrete successful search,
and an empty query is rejected. -/
theorem searchIndex_validation_witness :
    Indexer.trimString " " = "" ∧
    searchIndex (fun _ => 1) [] (fun _ => Except.ok [1]) false " " 5 1 =
      Except.error SearchError.queryRequired ∧
    Indexer.trimString "q" ≠ "" ∧
    searchIndex (fun _ => 1) [] (fun _ => Except.ok [1]) false "q" (-3) (-1) =
      Except.ok
        { results := searchSimilar (fun _ => 1) [] [1] (if (-3 : Int) ≤ 0 then 10 else -3)
            (if (-1 : ℚ) ≤ 0 then (7 : ℚ) / 10 else -1)
          totalResults := (searchSimilar (fun _ => 1) [] [1] (if (-3 : Int) ≤ 0 then 10 else -3)
            (if (-1 : ℚ) ≤ 0 then (7 : ℚ) / 10 else -1)).length } := by
  refine ⟨by decide, ?_, by decide, ?_⟩
  · exact (searchIndex_validation (fun _ => 1) [] (fun _ => Except.ok [1]) false " " 5 1).1
      (by decide)
  · exact (searchIndex_validation (fun _ => 1) [] (fun _ => Except.ok [1]) false "q"
      (-3) (-1)).2 (by decide) rfl [1] rfl
